import Mathlib

/-!
Shallow embedding of the bounded polling aggregator `streamentries` from
`src/diaMcpServer.py` (lines 53-121), together with theorems settling the
specification claims about it.

Modelling choices:
* A raw record (`entry`) is modelled by the three fields the code reads
  (`_id`, `sgv`, `dateString`); `entry.get(k)` returns `Option`.
* The HTTP client (`requests.get` + `raise_for_status` + `.json()`) is
  scripted: each loop iteration consumes one `ClientResp` from a list.
  `err` covers any raised exception (transport failure, non-2xx status,
  JSON decode failure); `nonList` covers a decoded payload that is not a
  list (carrying the string `repr(data)`); `ok` carries the decoded list.
* `time.monotonic()` is modelled by a function `clock : Nat → ℚ`; the
  i-th call to `time.monotonic()` returns `clock i`.  Reading 0 is taken
  when the deadline is computed; reading `k` is taken at the k-th
  evaluation of the `while` condition.  Faithfulness of a run requires
  `Monotone clock` (the real clock never decreases).
* Python floats (`timeout`, `poll_interval`) are modelled as ℚ: the code
  only compares them and takes min/max, operations exact on rationals.
* `time.sleep(d)` is recorded in an observable trace as a pair
  `(new_found, d)`, so claims about the sleep schedule are statable.
* If the loop wants another iteration but the response script is
  exhausted, the model returns `none` (underdetermined run); every real
  run corresponds to a long-enough script.
-/

namespace DiaMcp

/-- Raw record as decoded from the JSON array.  `id` models `entry.get("_id")`,
`sgv` models `entry.get("sgv")`, `dateString` models `entry.get("dateString")`;
`none` means the key is absent (or maps to JSON null). -/
structure Entry where
  id : Option String
  sgv : Option Int
  dateString : Option String
deriving DecidableEq, Repr

/-- One accumulated reading, as appended by lines 101-105 of the source:
the projected `sgv` and `dateString` fields plus the full raw record. -/
structure Reading where
  sgv : Option Int
  dateString : Option String
  raw : Entry
deriving DecidableEq, Repr

/-- Construct the dict appended at lines 101-105 from a raw entry. -/
def mkReading (e : Entry) : Reading :=
  ⟨e.sgv, e.dateString, e⟩

/-- Outcome of one scripted client interaction (lines 85-91). -/
inductive ClientResp where
  /-- An exception was raised: transport failure, non-2xx HTTP status
  (`raise_for_status`), or a JSON decode failure.  Carries `str(e)`. -/
  | err (msg : String)
  /-- The body decoded, but not to a list (line 92).  Carries `repr(data)`. -/
  | nonList (reprStr : String)
  /-- The body decoded to a list of records. -/
  | ok (entries : List Entry)
deriving DecidableEq, Repr

/-- Terminal value of one aggregation run: the JSON-dumped event list on
success, or the error string built at line 93 or line 119. -/
inductive RunResult where
  | success (events : List Reading)
  | failure (msg : String)
deriving DecidableEq, Repr

/-- Observable trace of one aggregation run: the terminal result, the
effective page size (the `count` query parameter every client call would
carry), the number of client calls made, and the sleeps performed, each
tagged with that iteration's `new_found` flag. -/
structure RunTrace where
  result : RunResult
  pageSize : Int
  calls : Nat
  sleeps : List (Bool × ℚ)
deriving DecidableEq, Repr

/-- Python `x or d` for an optional integer `x`: `None` and `0` are falsy
and yield the default; every other integer (negative included) is kept. -/
def pyOr (x : Option Int) (d : Int) : Int :=
  match x with
  | none => d
  | some v => if v = 0 then d else v

/-- Effective page size, lines 71-76: when `max_events > 0` the default is
`max(limit * 2, 1)`, otherwise `25`; a caller-supplied `per_request` wins
unless it is falsy (`None` or `0`). -/
def resolvedPageSize (max_events : Int) (per_request : Option Int) : Int :=
  if max_events > 0 then pyOr per_request (max (max_events * 2) 1)
  else pyOr per_request 25

/-- Boolean form of the count part of the `while` condition, line 84:
`limit is None or len(events) < limit`. -/
def underLimit (limit : Option Nat) (n : Nat) : Bool :=
  match limit with
  | none => true
  | some l => n < l

/-- Boolean form of the break condition, lines 107 and 110:
`limit is not None and len(events) >= limit`. -/
def limitReached (limit : Option Nat) (n : Nat) : Bool :=
  match limit with
  | none => false
  | some l => l ≤ n

/-- Inner scan of one fetched batch, lines 95-108: walk the records in
order; a record whose `_id` is absent or already seen is skipped
(`continue`); otherwise its id is added to the seen set, a `Reading` is
appended, `new_found` is set, and the scan breaks as soon as the limit is
reached.  Returns the updated events, seen set and `new_found` flag. -/
def scanBatch (limit : Option Nat) :
    List Entry → List Reading → List String → Bool →
    List Reading × List String × Bool
  | [], events, seen, newFound => (events, seen, newFound)
  | e :: rest, events, seen, newFound =>
    match e.id with
    | none => scanBatch limit rest events seen newFound
    | some i =>
      if i ∈ seen then scanBatch limit rest events seen newFound
      else
        let events' := events ++ [mkReading e]
        if limitReached limit events'.length then
          (events', i :: seen, true)
        else
          scanBatch limit rest events' (i :: seen) true

/-- Polling loop, lines 84-121.  `k` is the index of the next
`time.monotonic()` reading.  Each iteration consumes one scripted client
response; exhausting the script while the loop condition still holds
yields `none` (underdetermined run). -/
def pollLoop (limit : Option Nat) (deadline pollInterval : ℚ) (perReq : Int)
    (clock : Nat → ℚ) :
    List ClientResp → Nat → List Reading → List String →
    List (Bool × ℚ) → Nat → Option RunTrace
  | [], k, events, _, sleeps, calls =>
    if decide (clock k < deadline) && underLimit limit events.length then
      none
    else
      some ⟨RunResult.success events, perReq, calls, sleeps⟩
  | resp :: rest, k, events, seen, sleeps, calls =>
    if decide (clock k < deadline) && underLimit limit events.length then
      match resp with
      | ClientResp.err m =>
        some ⟨RunResult.failure ("Error streaming entries via REST polling: " ++ m),
              perReq, calls + 1, sleeps⟩
      | ClientResp.nonList r =>
        some ⟨RunResult.failure ("Unexpected response payload: " ++ r),
              perReq, calls + 1, sleeps⟩
      | ClientResp.ok batch =>
        match scanBatch limit batch events seen false with
        | (events', seen', newFound) =>
          if limitReached limit events'.length then
            some ⟨RunResult.success events', perReq, calls + 1, sleeps⟩
          else
            pollLoop limit deadline pollInterval perReq clock rest (k + 1)
              events' seen'
              (sleeps ++ [(newFound,
                if newFound then max (min pollInterval 1) 0
                else max pollInterval 0)])
              (calls + 1)
    else
      some ⟨RunResult.success events, perReq, calls, sleeps⟩
  termination_by structural resps k events seen sleeps calls => resps

/-- The `streamentries` tool, lines 53-121: resolve the effective limit and
page size, compute the deadline from clock reading 0 (`deadline =
time.monotonic() + max(timeout, 0)`), and run the polling loop starting
with clock reading 1. -/
def streamentries (max_events : Int) (timeout pollInterval : ℚ)
    (per_request : Option Int) (clock : Nat → ℚ)
    (responses : List ClientResp) : Option RunTrace :=
  let limit := if max_events > 0 then some max_events.toNat else none
  let perReq := resolvedPageSize max_events per_request
  let deadline := clock 0 + max timeout 0
  pollLoop limit deadline pollInterval perReq clock responses 1 [] [] [] 0

/-- Well-formedness of the accumulated state: every accumulated reading
carries a non-absent identifier that is registered in the seen set, and
the accumulated identifiers are pairwise distinct. -/
def GoodState (events : List Reading) (seen : List String) : Prop :=
  (∀ r ∈ events, ∃ i, r.raw.id = some i ∧ i ∈ seen) ∧
  (events.filterMap fun r => r.raw.id).Nodup

/-- Property of a response script: every scripted client interaction
succeeds with a decoded list (no raised exception, no non-list payload). -/
def AllOk (resps : List ClientResp) : Prop :=
  ∀ r ∈ resps, ∃ es, r = ClientResp.ok es

/-! Helper lemmas about the batch scan and the polling loop. -/

theorem goodState_nil : GoodState [] [] := by
  constructor
  · intro r hr
    simp at hr
  · simp

theorem scanBatch_good (limit : Option Nat) :
    ∀ (batch : List Entry) (events : List Reading) (seen : List String) (nf : Bool),
      GoodState events seen →
      GoodState (scanBatch limit batch events seen nf).1
        (scanBatch limit batch events seen nf).2.1 := by
  intro batch
  induction batch with
  | nil =>
    intro events seen nf h
    simpa [scanBatch] using h
  | cons e rest ih =>
    intro events seen nf h
    cases hid : e.id with
    | none =>
      simpa [scanBatch, hid] using ih events seen nf h
    | some i =>
      by_cases hmem : i ∈ seen
      · simpa [scanBatch, hid, hmem] using ih events seen nf h
      · have hnotin : i ∉ events.filterMap fun r => r.raw.id := by
          intro hin
          obtain ⟨r, hr, hri⟩ := List.mem_filterMap.mp hin
          obtain ⟨j, hj, hjs⟩ := h.1 r hr
          rw [hj] at hri
          exact hmem (Option.some_injective _ hri ▸ hjs)
        have hgood : GoodState (events ++ [mkReading e]) (i :: seen) := by
          constructor
          · intro r hr
            rcases List.mem_append.mp hr with hr | hr
            · obtain ⟨j, hj, hjs⟩ := h.1 r hr
              exact ⟨j, hj, List.mem_cons_of_mem _ hjs⟩
            · rw [List.mem_singleton] at hr
              subst hr
              exact ⟨i, hid, List.mem_cons_self _ _⟩
          · rw [List.filterMap_append]
            have hone : ([mkReading e].filterMap fun r => r.raw.id) = [i] := by
              simp [mkReading, hid]
            rw [hone]
            exact List.nodup_append.mpr ⟨h.2, List.nodup_singleton i,
              by simpa [List.disjoint_singleton] using hnotin⟩
        by_cases hlim : limitReached limit (events.length + 1) = true
        · simpa [scanBatch, hid, hmem, hlim] using hgood
        · rw [Bool.not_eq_true] at hlim
          simpa [scanBatch, hid, hmem, hlim] using
            ih (events ++ [mkReading e]) (i :: seen) true hgood

theorem pollLoop_good (limit : Option Nat) (deadline pollInterval : ℚ) (perReq : Int)
    (clock : Nat → ℚ) :
    ∀ (resps : List ClientResp) (k : Nat) (events : List Reading) (seen : List String)
      (sleeps : List (Bool × ℚ)) (calls : Nat) (t : RunTrace),
      GoodState events seen →
      pollLoop limit deadline pollInterval perReq clock resps k events seen sleeps calls
        = some t →
      ∀ evs, t.result = RunResult.success evs →
        (evs.filterMap fun r => r.raw.id).Nodup := by
  intro resps
  induction resps with
  | nil =>
    intro k events seen sleeps calls t h hrun evs hres
    by_cases hg : (decide (clock k < deadline) && underLimit limit events.length) = true
    · simp [pollLoop, hg] at hrun
    · rw [Bool.not_eq_true] at hg
      simp [pollLoop, hg] at hrun
      subst hrun
      simp at hres
      exact hres ▸ h.2
  | cons resp rest ih =>
    intro k events seen sleeps calls t h hrun evs hres
    by_cases hg : (decide (clock k < deadline) && underLimit limit events.length) = true
    · cases resp with
      | err m =>
        simp [pollLoop, hg] at hrun
        subst hrun
        simp at hres
      | nonList r =>
        simp [pollLoop, hg] at hrun
        subst hrun
        simp at hres
      | ok batch =>
        rcases hs : scanBatch limit batch events seen false with ⟨events', seen', nf⟩
        have hgood := scanBatch_good limit batch events seen false h
        rw [hs] at hgood
        by_cases hlim : limitReached limit events'.length = true
        · simp [pollLoop, hg, hs, hlim] at hrun
          subst hrun
          simp at hres
          exact hres ▸ hgood.2
        · rw [Bool.not_eq_true] at hlim
          simp only [pollLoop, hg, hs, hlim, if_true, if_false, Bool.false_eq_true] at hrun
          exact ih _ _ _ _ _ t hgood hrun evs hres
    · rw [Bool.not_eq_true] at hg
      simp [pollLoop, hg] at hrun
      subst hrun
      simp at hres
      exact hres ▸ h.2

theorem scanBatch_length (N : Nat) :
    ∀ (batch : List Entry) (events : List Reading) (seen : List String) (nf : Bool),
      events.length < N →
      ((scanBatch (some N) batch events seen nf).1).length ≤ N := by
  intro batch
  induction batch with
  | nil =>
    intro events seen nf h
    simpa [scanBatch] using le_of_lt h
  | cons e rest ih =>
    intro events seen nf h
    cases hid : e.id with
    | none =>
      simpa [scanBatch, hid] using ih events seen nf h
    | some i =>
      by_cases hmem : i ∈ seen
      · simpa [scanBatch, hid, hmem] using ih events seen nf h
      · by_cases hlim : limitReached (some N) (events.length + 1) = true
        · simp [scanBatch, hid, hmem, hlim]
          omega
        · rw [Bool.not_eq_true] at hlim
          have hlt : events.length + 1 < N := by
            simp [limitReached] at hlim
            omega
          simpa [scanBatch, hid, hmem, hlim] using
            ih (events ++ [mkReading e]) (i :: seen) true (by simpa using hlt)

theorem pollLoop_length (N : Nat) (deadline pollInterval : ℚ) (perReq : Int)
    (clock : Nat → ℚ) :
    ∀ (resps : List ClientResp) (k : Nat) (events : List Reading) (seen : List String)
      (sleeps : List (Bool × ℚ)) (calls : Nat) (t : RunTrace),
      events.length ≤ N →
      pollLoop (some N) deadline pollInterval perReq clock resps k events seen sleeps calls
        = some t →
      ∀ evs, t.result = RunResult.success evs → evs.length ≤ N := by
  intro resps
  induction resps with
  | nil =>
    intro k events seen sleeps calls t h hrun evs hres
    by_cases hg : (decide (clock k < deadline) && underLimit (some N) events.length) = true
    · simp [pollLoop, hg] at hrun
    · rw [Bool.not_eq_true] at hg
      simp [pollLoop, hg] at hrun
      subst hrun
      simp at hres
      exact hres ▸ h
  | cons resp rest ih =>
    intro k events seen sleeps calls t h hrun evs hres
    by_cases hg : (decide (clock k < deadline) && underLimit (some N) events.length) = true
    · have hlt : events.length < N := by
        have h2 := (Bool.and_eq_true _ _).mp hg |>.2
        simpa [underLimit] using h2
      cases resp with
      | err m =>
        simp [pollLoop, hg] at hrun
        subst hrun
        simp at hres
      | nonList r =>
        simp [pollLoop, hg] at hrun
        subst hrun
        simp at hres
      | ok batch =>
        rcases hs : scanBatch (some N) batch events seen false with ⟨events', seen', nf⟩
        have hlen : events'.length ≤ N := by
          have hh := scanBatch_length N batch events seen false hlt
          rw [hs] at hh
          exact hh
        by_cases hlim : limitReached (some N) events'.length = true
        · simp [pollLoop, hg, hs, hlim] at hrun
          subst hrun
          simp at hres
          exact hres ▸ hlen
        · rw [Bool.not_eq_true] at hlim
          simp only [pollLoop, hg, hs, hlim, if_true, if_false, Bool.false_eq_true] at hrun
          exact ih _ _ _ _ _ t hlen hrun evs hres
    · rw [Bool.not_eq_true] at hg
      simp [pollLoop, hg] at hrun
      subst hrun
      simp at hres
      exact hres ▸ h

theorem pollLoop_sleeps (limit : Option Nat) (deadline pollInterval : ℚ) (perReq : Int)
    (clock : Nat → ℚ) :
    ∀ (resps : List ClientResp) (k : Nat) (events : List Reading) (seen : List String)
      (sleeps : List (Bool × ℚ)) (calls : Nat) (t : RunTrace),
      (∀ s ∈ sleeps, s.2 = if s.1 then max (min pollInterval 1) 0 else max pollInterval 0) →
      pollLoop limit deadline pollInterval perReq clock resps k events seen sleeps calls
        = some t →
      ∀ s ∈ t.sleeps,
        s.2 = if s.1 then max (min pollInterval 1) 0 else max pollInterval 0 := by
  intro resps
  induction resps with
  | nil =>
    intro k events seen sleeps calls t h hrun
    by_cases hg : (decide (clock k < deadline) && underLimit limit events.length) = true
    · simp [pollLoop, hg] at hrun
    · rw [Bool.not_eq_true] at hg
      simp [pollLoop, hg] at hrun
      subst hrun
      exact h
  | cons resp rest ih =>
    intro k events seen sleeps calls t h hrun
    by_cases hg : (decide (clock k < deadline) && underLimit limit events.length) = true
    · cases resp with
      | err m =>
        simp [pollLoop, hg] at hrun
        subst hrun
        exact h
      | nonList r =>
        simp [pollLoop, hg] at hrun
        subst hrun
        exact h
      | ok batch =>
        rcases hs : scanBatch limit batch events seen false with ⟨events', seen', nf⟩
        by_cases hlim : limitReached limit events'.length = true
        · simp [pollLoop, hg, hs, hlim] at hrun
          subst hrun
          exact h
        · rw [Bool.not_eq_true] at hlim
          simp only [pollLoop, hg, hs, hlim, if_true, if_false, Bool.false_eq_true] at hrun
          refine ih _ _ _ _ _ t ?_ hrun
          intro s hs'
          rcases List.mem_append.mp hs' with hs' | hs'
          · exact h s hs'
          · rw [List.mem_singleton] at hs'
            subst hs'
            by_cases hnf : nf <;> simp [hnf]
    · rw [Bool.not_eq_true] at hg
      simp [pollLoop, hg] at hrun
      subst hrun
      exact h

theorem pollLoop_pageSize (limit : Option Nat) (deadline pollInterval : ℚ) (perReq : Int)
    (clock : Nat → ℚ) :
    ∀ (resps : List ClientResp) (k : Nat) (events : List Reading) (seen : List String)
      (sleeps : List (Bool × ℚ)) (calls : Nat) (t : RunTrace),
      pollLoop limit deadline pollInterval perReq clock resps k events seen sleeps calls
        = some t →
      t.pageSize = perReq := by
  intro resps
  induction resps with
  | nil =>
    intro k events seen sleeps calls t hrun
    by_cases hg : (decide (clock k < deadline) && underLimit limit events.length) = true
    · simp [pollLoop, hg] at hrun
    · rw [Bool.not_eq_true] at hg
      simp [pollLoop, hg] at hrun
      subst hrun
      rfl
  | cons resp rest ih =>
    intro k events seen sleeps calls t hrun
    by_cases hg : (decide (clock k < deadline) && underLimit limit events.length) = true
    · cases resp with
      | err m =>
        simp [pollLoop, hg] at hrun
        subst hrun
        rfl
      | nonList r =>
        simp [pollLoop, hg] at hrun
        subst hrun
        rfl
      | ok batch =>
        rcases hs : scanBatch limit batch events seen false with ⟨events', seen', nf⟩
        by_cases hlim : limitReached limit events'.length = true
        · simp [pollLoop, hg, hs, hlim] at hrun
          subst hrun
          rfl
        · rw [Bool.not_eq_true] at hlim
          simp only [pollLoop, hg, hs, hlim, if_true, if_false, Bool.false_eq_true] at hrun
          exact ih _ _ _ _ _ t hrun
    · rw [Bool.not_eq_true] at hg
      simp [pollLoop, hg] at hrun
      subst hrun
      rfl

theorem pollLoop_allOk (limit : Option Nat) (deadline pollInterval : ℚ) (perReq : Int)
    (clock : Nat → ℚ) :
    ∀ (resps : List ClientResp) (k : Nat) (events : List Reading) (seen : List String)
      (sleeps : List (Bool × ℚ)) (calls : Nat) (t : RunTrace),
      AllOk resps →
      pollLoop limit deadline pollInterval perReq clock resps k events seen sleeps calls
        = some t →
      ∃ evs, t.result = RunResult.success evs := by
  intro resps
  induction resps with
  | nil =>
    intro k events seen sleeps calls t _ hrun
    by_cases hg : (decide (clock k < deadline) && underLimit limit events.length) = true
    · simp [pollLoop, hg] at hrun
    · rw [Bool.not_eq_true] at hg
      simp [pollLoop, hg] at hrun
      subst hrun
      exact ⟨events, rfl⟩
  | cons resp rest ih =>
    intro k events seen sleeps calls t hok hrun
    by_cases hg : (decide (clock k < deadline) && underLimit limit events.length) = true
    · obtain ⟨es, hes⟩ := hok resp (List.mem_cons_self _ _)
      subst hes
      rcases hs : scanBatch limit es events seen false with ⟨events', seen', nf⟩
      by_cases hlim : limitReached limit events'.length = true
      · simp [pollLoop, hg, hs, hlim] at hrun
        subst hrun
        exact ⟨events', rfl⟩
      · rw [Bool.not_eq_true] at hlim
        simp only [pollLoop, hg, hs, hlim, if_true, if_false, Bool.false_eq_true] at hrun
        refine ih _ _ _ _ _ t ?_ hrun
        intro r hr
        exact hok r (List.mem_cons_of_mem _ hr)
    · rw [Bool.not_eq_true] at hg
      simp [pollLoop, hg] at hrun
      subst hrun
      exact ⟨events, rfl⟩

/-! Claim theorems. -/

/-- C1 counterexample: a fetched batch contains one record with an absent
`_id` (value 100, limit 5, plenty of room and time), yet the run result is
the empty sequence: the record was neither appended as a new Reading nor
did it advance the count — refuting the claim that absent-identifier
records are appended and counted. -/
theorem C1_cex_absent_id_not_appended :
    Monotone (fun n : Nat => (6 : ℚ) * n) ∧
    streamentries 5 10 5 none (fun n => (6 : ℚ) * n)
        [ClientResp.ok [⟨none, some 100, some "T"⟩]]
      = some ⟨RunResult.success [], 10, 1, [(false, 5)]⟩ := by
  constructor
  · intro a b hab
    have : (a : ℚ) ≤ (b : ℚ) := by exact_mod_cast hab
    simpa using mul_le_mul_of_nonneg_left this (by norm_num : (0:ℚ) ≤ 6)
  · norm_num +decide [streamentries, pollLoop, scanBatch, resolvedPageSize, pyOr,
      underLimit, limitReached]

/-- C1 (amended): during the batch scan (lines 96-108), every record whose
`_id` is absent is skipped, wherever it sits in the batch: (1) when the
scan reaches an absent-id record, whatever follows it and whatever state
has been accumulated, the scan continues on the remaining records with the
events, seen set and new-record flag unchanged — the record is not
appended, does not advance the count, is not marked seen and does not set
the flag; (2) consequently, scanning any batch is the same as scanning
only its present-identifier records.  (The original claim said such
records are appended and counted; line 98 `continue`s on them instead.) -/
theorem C1_amended_absent_ids_skipped :
    (∀ (limit : Option Nat) (e : Entry) (rest : List Entry) (events : List Reading)
       (seen : List String) (nf : Bool),
       e.id = none →
       scanBatch limit (e :: rest) events seen nf = scanBatch limit rest events seen nf)
  ∧ (∀ (limit : Option Nat) (batch : List Entry) (events : List Reading)
       (seen : List String) (nf : Bool),
       scanBatch limit batch events seen nf
         = scanBatch limit (batch.filter fun e => e.id.isSome) events seen nf) := by
  constructor
  · intro limit e rest events seen nf hid
    simp [scanBatch, hid]
  · intro limit batch
    induction batch with
    | nil =>
      intro events seen nf
      rfl
    | cons e rest ih =>
      intro events seen nf
      cases hid : e.id with
      | none =>
        simp only [List.filter_cons, hid, Option.isSome_none, Bool.false_eq_true,
          if_false]
        simp only [scanBatch, hid]
        exact ih events seen nf
      | some i =>
        simp only [List.filter_cons, hid, Option.isSome_some, if_true]
        by_cases hmem : i ∈ seen
        · simp only [scanBatch, hid, hmem, if_true]
          exact ih events seen nf
        · by_cases hlim : limitReached limit (events.length + 1) = true
          · simp [scanBatch, hid, hmem, hlim]
          · rw [Bool.not_eq_true] at hlim
            simp only [scanBatch, hid, hmem, if_false, List.length_append,
              List.length_singleton, hlim, Bool.false_eq_true]
            exact ih (events ++ [mkReading e]) (i :: seen) true

/-- C1 witness: the one-step part applied to a mixed batch: an absent-id
record followed by a present-id record is skipped, and the scan proceeds
to the present-id record as if the absent-id record were not there. -/
theorem C1_amended_witness :
    scanBatch (some 5) [⟨none, some 100, some "T"⟩, ⟨some "a", some 1, none⟩] [] [] false
      = scanBatch (some 5) [⟨some "a", some 1, none⟩] [] [] false :=
  C1_amended_absent_ids_skipped.1 (some 5) ⟨none, some 100, some "T"⟩
    [⟨some "a", some 1, none⟩] [] [] false rfl

/-- C2 counterexample: with `timeout = 0` and a perfectly valid (constant,
hence monotone) clock, the first evaluation of the `while` condition
`time.monotonic() < deadline` is already false, so zero client calls are
made — not exactly one as claimed. -/
theorem C2_cex_zero_timeout_zero_calls :
    Monotone (fun _ : Nat => (0 : ℚ)) ∧
    streamentries 5 0 5 none (fun _ => (0 : ℚ))
        [ClientResp.ok [⟨some "a", some 100, some "T"⟩]]
      = some ⟨RunResult.success [], 10, 0, []⟩ := by
  constructor
  · exact monotone_const
  · norm_num +decide [streamentries, pollLoop, resolvedPageSize, pyOr, underLimit]

/-- C2 (amended): for every aggregation run with `timeout_seconds ≤ 0` and
a monotone clock, the deadline check fails before any client call: zero
client calls are made, no sleep happens, and the run returns an empty
successful result, regardless of `poll_interval_seconds` and of the data
the source would have served.  (The original claim said exactly one client
call is made; the strict `<` against `deadline = now + 0` permits none.) -/
theorem C2_amended_nonpositive_timeout_no_calls (max_events : Int)
    (timeout pollInterval : ℚ) (per_request : Option Int) (clock : Nat → ℚ)
    (responses : List ClientResp) (hmono : Monotone clock) (ht : timeout ≤ 0) :
    streamentries max_events timeout pollInterval per_request clock responses
      = some ⟨RunResult.success [], resolvedPageSize max_events per_request, 0, []⟩ := by
  have hnot : ¬ (clock 1 < clock 0 + max timeout 0) := by
    rw [max_eq_right ht, add_zero]
    exact not_lt.mpr (hmono (Nat.zero_le 1))
  cases responses with
  | nil => simp [streamentries, pollLoop, decide_eq_false hnot]
  | cons r rest => simp [streamentries, pollLoop, decide_eq_false hnot]

/-- C2 witness: the amended theorem applied to a concrete run with a
negative timeout and a constant clock. -/
theorem C2_amended_witness :
    (-1 : ℚ) ≤ 0 ∧
    streamentries 5 (-1) 5 none (fun _ => (0 : ℚ)) []
      = some ⟨RunResult.success [], resolvedPageSize 5 none, 0, []⟩ :=
  ⟨by norm_num,
   C2_amended_nonpositive_timeout_no_calls 5 (-1) 5 none (fun _ => (0 : ℚ)) []
     monotone_const (by norm_num)⟩

/-- C3: every aggregation run that returns a result sequence yields no two
Readings with the same non-absent identifier: the identifiers of the
result, read off by `filterMap`, are pairwise distinct.  The proof goes
through `pollLoop_good`, the invariant preserved by every iteration of the
polling loop. -/
theorem C3_dedup_invariant (max_events : Int) (timeout pollInterval : ℚ)
    (per_request : Option Int) (clock : Nat → ℚ) (responses : List ClientResp)
    (t : RunTrace)
    (hrun : streamentries max_events timeout pollInterval per_request clock responses
      = some t)
    (evs : List Reading) (hres : t.result = RunResult.success evs) :
    (evs.filterMap fun r => r.raw.id).Nodup :=
  pollLoop_good _ _ _ _ _ _ _ _ _ _ _ _ goodState_nil hrun evs hres

/-- C3 witness: a run whose source repeats records `a`, `b` before `c`
arrives still returns each identifier once. -/
theorem C3_witness :
    (([mkReading ⟨some "a", some 1, none⟩, mkReading ⟨some "b", some 2, none⟩,
       mkReading ⟨some "c", some 3, none⟩].filterMap fun r => r.raw.id)).Nodup := by
  have hrun : streamentries 3 10 5 none (fun n => (n : ℚ))
      [ClientResp.ok [⟨some "a", some 1, none⟩, ⟨some "b", some 2, none⟩],
       ClientResp.ok [⟨some "a", some 1, none⟩, ⟨some "b", some 2, none⟩,
         ⟨some "c", some 3, none⟩]]
      = some ⟨RunResult.success
          [mkReading ⟨some "a", some 1, none⟩, mkReading ⟨some "b", some 2, none⟩,
           mkReading ⟨some "c", some 3, none⟩], 6, 2, [(true, 1)]⟩ := by
    norm_num +decide [streamentries, pollLoop, scanBatch, resolvedPageSize, pyOr,
      underLimit, limitReached, mkReading]
  exact C3_dedup_invariant 3 10 5 none _ _ _ hrun _ rfl

/-- C4: with a positive `max_count`, (1) the result sequence never exceeds
the limit; (2) once a record's append reaches the limit the batch scan
stops immediately — the records after it are never examined (the scan of
`e :: rest` equals the scan of `[e]` alone); (3) the loop then exits with
the success result after exactly this one further call — the remaining
scripted responses are never consumed. -/
theorem C4_count_limit :
    (∀ (max_events : Int) (timeout pollInterval : ℚ) (per_request : Option Int)
       (clock : Nat → ℚ) (responses : List ClientResp) (t : RunTrace)
       (evs : List Reading),
       0 < max_events →
       streamentries max_events timeout pollInterval per_request clock responses
         = some t →
       t.result = RunResult.success evs →
       evs.length ≤ max_events.toNat)
  ∧ (∀ (limit : Option Nat) (e : Entry) (i : String) (rest : List Entry)
       (events : List Reading) (seen : List String) (nf : Bool),
       e.id = some i → i ∉ seen →
       limitReached limit (events.length + 1) = true →
       scanBatch limit (e :: rest) events seen nf = scanBatch limit [e] events seen nf)
  ∧ (∀ (limit : Option Nat) (deadline pollInterval : ℚ) (perReq : Int)
       (clock : Nat → ℚ) (batch : List Entry) (rest : List ClientResp) (k : Nat)
       (events events' : List Reading) (seen seen' : List String)
       (sleeps : List (Bool × ℚ)) (calls : Nat) (nf : Bool),
       (decide (clock k < deadline) && underLimit limit events.length) = true →
       scanBatch limit batch events seen false = (events', seen', nf) →
       limitReached limit events'.length = true →
       pollLoop limit deadline pollInterval perReq clock
           (ClientResp.ok batch :: rest) k events seen sleeps calls
         = some ⟨RunResult.success events', perReq, calls + 1, sleeps⟩) := by
  refine ⟨?_, ?_, ?_⟩
  · intro m timeout p pr c r t evs hm hrun hres
    simp only [streamentries] at hrun
    rw [if_pos hm] at hrun
    exact pollLoop_length m.toNat _ _ _ _ _ _ _ _ _ _ _ (Nat.zero_le _) hrun evs hres
  · intro limit e i rest events seen nf hid hmem hlim
    simp [scanBatch, hid, hmem, hlim]
  · intro limit deadline p perReq c batch rest k events events' seen seen' sleeps calls
      nf hg hs hlim
    simp [pollLoop, hg, hs, hlim]

/-- C4 witness: the three parts applied at concrete inputs: a run with
`max_count = 1`, a two-record batch whose first record fills the limit,
and a loop state whose batch scan reaches the limit with a further
scripted response pending. -/
theorem C4_witness :
    ([mkReading ⟨some "a", some 1, none⟩] : List Reading).length ≤ (1 : Int).toNat
  ∧ scanBatch (some 1) [⟨some "a", some 1, none⟩, ⟨some "b", some 2, none⟩] [] [] false
      = scanBatch (some 1) [⟨some "a", some 1, none⟩] [] [] false
  ∧ pollLoop (some 1) 10 5 2 (fun n => (n : ℚ))
        [ClientResp.ok [⟨some "a", some 1, none⟩], ClientResp.err "never reached"]
        1 [] [] [] 0
      = some ⟨RunResult.success [mkReading ⟨some "a", some 1, none⟩], 2, 1, []⟩ := by
  refine ⟨?_, ?_, ?_⟩
  · have hrun : streamentries 1 10 5 none (fun n => (n : ℚ))
        [ClientResp.ok [⟨some "a", some 1, none⟩]]
        = some ⟨RunResult.success [mkReading ⟨some "a", some 1, none⟩], 2, 1, []⟩ := by
      norm_num +decide [streamentries, pollLoop, scanBatch, resolvedPageSize, pyOr,
        underLimit, limitReached, mkReading]
    exact C4_count_limit.1 1 10 5 none _ _ _ _ (by norm_num) hrun rfl
  · exact C4_count_limit.2.1 (some 1) ⟨some "a", some 1, none⟩ "a"
      [⟨some "b", some 2, none⟩] [] [] false rfl (by simp) (by simp [limitReached])
  · exact C4_count_limit.2.2 (some 1) 10 5 2 (fun n => (n : ℚ))
      [⟨some "a", some 1, none⟩] [ClientResp.err "never reached"] 1 []
      [mkReading ⟨some "a", some 1, none⟩] [] ["a"] [] 0 true
      (by norm_num [underLimit])
      (by norm_num +decide [scanBatch, limitReached, mkReading])
      (by simp [limitReached])

/-- C5: when the caller supplies no page-size override, the effective page
size recorded for the run (the `count` every client call carries) is 25
when `max_count ≤ 0` (unbounded case) and `max(limit * 2, 1)` when the
limit is positive. -/
theorem C5_default_page_size (max_events : Int) (timeout pollInterval : ℚ)
    (clock : Nat → ℚ) (responses : List ClientResp) (t : RunTrace)
    (hrun : streamentries max_events timeout pollInterval none clock responses
      = some t) :
    t.pageSize = if 0 < max_events then max (max_events * 2) 1 else 25 := by
  have hp := pollLoop_pageSize _ _ _ _ _ _ _ _ _ _ _ _ hrun
  rw [hp]
  by_cases hm : 0 < max_events <;> simp [resolvedPageSize, pyOr, hm]

/-- C5 witness: the theorem applied to an unbounded run (`max_events = -1`)
whose derived page size is 25. -/
theorem C5_witness :
    RunTrace.pageSize ⟨RunResult.success [], 25, 0, []⟩
      = if 0 < (-1 : Int) then max ((-1 : Int) * 2) 1 else 25 := by
  have hrun : streamentries (-1) 0 5 none (fun _ => (0 : ℚ)) []
      = some ⟨RunResult.success [], 25, 0, []⟩ := by
    norm_num +decide [streamentries, pollLoop, resolvedPageSize, pyOr, underLimit]
  exact C5_default_page_size (-1) 0 5 _ _ _ hrun

/-- C6: in any loop iteration that runs (deadline not passed, limit not
reached), a raised client exception or a non-list payload aborts the run
at once with the corresponding descriptive failure string: the remaining
scripted responses are never consumed, no sleep is added, and the failure
value carries none of the accumulated Readings, however many had been
collected. -/
theorem C6_fail_fast (limit : Option Nat) (deadline pollInterval : ℚ) (perReq : Int)
    (clock : Nat → ℚ) (k : Nat) (events : List Reading) (seen : List String)
    (sleeps : List (Bool × ℚ)) (calls : Nat)
    (hg : (decide (clock k < deadline) && underLimit limit events.length) = true) :
    (∀ (m : String) (rest : List ClientResp),
       pollLoop limit deadline pollInterval perReq clock (ClientResp.err m :: rest)
           k events seen sleeps calls
         = some ⟨RunResult.failure ("Error streaming entries via REST polling: " ++ m),
                 perReq, calls + 1, sleeps⟩)
  ∧ (∀ (r : String) (rest : List ClientResp),
       pollLoop limit deadline pollInterval perReq clock (ClientResp.nonList r :: rest)
           k events seen sleeps calls
         = some ⟨RunResult.failure ("Unexpected response payload: " ++ r),
                 perReq, calls + 1, sleeps⟩) := by
  constructor <;> intro s rest <;> simp [pollLoop, hg]

/-- C6 witness: both failure kinds at a loop state that has already
accumulated a Reading: the failure output drops it in both cases. -/
theorem C6_witness :
    pollLoop (some 5) 10 5 10 (fun n => (n : ℚ)) [ClientResp.err "boom"]
        1 [mkReading ⟨some "a", some 1, none⟩] ["a"] [] 1
      = some ⟨RunResult.failure ("Error streaming entries via REST polling: " ++ "boom"),
              10, 2, []⟩
  ∧ pollLoop (some 5) 10 5 10 (fun n => (n : ℚ)) [ClientResp.nonList "null"]
        1 [mkReading ⟨some "a", some 1, none⟩] ["a"] [] 1
      = some ⟨RunResult.failure ("Unexpected response payload: " ++ "null"),
              10, 2, []⟩ := by
  have hg : (decide ((fun n => (n : ℚ)) 1 < 10)
      && underLimit (some 5) ([mkReading ⟨some "a", some 1, none⟩]).length) = true := by
    norm_num [underLimit]
  exact ⟨(C6_fail_fast _ _ _ _ _ _ _ _ _ _ hg).1 "boom" [],
         (C6_fail_fast _ _ _ _ _ _ _ _ _ _ hg).2 "null" []⟩

/-- C7: when no client error occurs (every scripted interaction returns a
decoded list), any terminating aggregation run — in particular one that
stops because the deadline expired before the requested count was reached
— returns a successful result carrying the accumulated Readings, with no
error indication, even when that sequence is empty. -/
theorem C7_no_error_success (max_events : Int) (timeout pollInterval : ℚ)
    (per_request : Option Int) (clock : Nat → ℚ) (responses : List ClientResp)
    (t : RunTrace) (hok : AllOk responses)
    (hrun : streamentries max_events timeout pollInterval per_request clock responses
      = some t) :
    ∃ evs, t.result = RunResult.success evs :=
  pollLoop_allOk _ _ _ _ _ _ _ _ _ _ _ _ hok hrun

/-- C7 witness: a run whose single call returns an empty list and whose
deadline then expires ends as an empty success, not an error. -/
theorem C7_witness :
    ∃ evs, RunTrace.result ⟨RunResult.success [], 10, 1, [(false, 5)]⟩
      = RunResult.success evs := by
  have hrun : streamentries 5 10 5 none (fun n => (6 : ℚ) * n) [ClientResp.ok []]
      = some ⟨RunResult.success [], 10, 1, [(false, 5)]⟩ := by
    norm_num +decide [streamentries, pollLoop, scanBatch, resolvedPageSize, pyOr,
      underLimit, limitReached]
  exact C7_no_error_success 5 10 5 none _ _ _
    (by intro r hr; rw [List.mem_singleton] at hr; exact ⟨[], hr⟩) hrun

/-- C8: every recorded inter-call sleep of a run is `max(poll_interval, 0)`
when that iteration found no new record, and `max(min(poll_interval, 1), 0)`
when it found at least one (the Boolean component of each trace entry is
that iteration's new-record flag). -/
theorem C8_sleep_schedule (max_events : Int) (timeout pollInterval : ℚ)
    (per_request : Option Int) (clock : Nat → ℚ) (responses : List ClientResp)
    (t : RunTrace)
    (hrun : streamentries max_events timeout pollInterval per_request clock responses
      = some t) :
    ∀ s ∈ t.sleeps,
      s.2 = if s.1 then max (min pollInterval 1) 0 else max pollInterval 0 :=
  pollLoop_sleeps _ _ _ _ _ _ _ _ _ _ _ _
    (fun s hs => absurd hs (List.not_mem_nil s)) hrun

/-- C8 witness: the quiescent iteration of a concrete run slept the full
clamped interval. -/
theorem C8_witness :
    ((false, (5 : ℚ)) : Bool × ℚ).2
      = if ((false, (5 : ℚ)) : Bool × ℚ).1 then max (min (5 : ℚ) 1) 0
        else max (5 : ℚ) 0 := by
  have hrun : streamentries 5 10 5 none (fun n => (6 : ℚ) * n)
      [ClientResp.ok [⟨none, none, none⟩]]
      = some ⟨RunResult.success [], 10, 1, [(false, 5)]⟩ := by
    norm_num +decide [streamentries, pollLoop, scanBatch, resolvedPageSize, pyOr,
      underLimit, limitReached]
  exact C8_sleep_schedule 5 10 5 none _ _ _ hrun (false, 5) (by simp)

/-- C9 counterexample: `page_size_override = -7` is not floored to zero:
the effective page size the run records (the `count` every client call
would carry) is `-7` itself.  This refutes "every negative value is
floored to zero before use". -/
theorem C9_cex_negative_page_size_kept :
    streamentries 5 0 5 (some (-7)) (fun _ => (0 : ℚ)) []
      = some ⟨RunResult.success [], -7, 0, []⟩ ∧ (-7 : Int) < 0 := by
  constructor
  · norm_num +decide [streamentries, pollLoop, resolvedPageSize, pyOr, underLimit]
  · norm_num

/-- C9 (amended): the numeric parameters are validated only leniently and
only partially by clamping: (1) a negative `timeout` is floored to zero
(the run behaves exactly as with `max(timeout, 0)`); (2) every performed
sleep is non-negative whatever `poll_interval` is; (3) a negative
`page_size_override`, however, is NOT clamped — it is used as supplied;
(4) no combination of numeric parameters produces a hard validation
error: whenever the client itself never fails, the run ends successfully. -/
theorem C9_amended_clamping :
    (∀ (max_events : Int) (timeout pollInterval : ℚ) (per_request : Option Int)
       (clock : Nat → ℚ) (responses : List ClientResp),
       streamentries max_events timeout pollInterval per_request clock responses
         = streamentries max_events (max timeout 0) pollInterval per_request clock
             responses)
  ∧ (∀ (max_events : Int) (timeout pollInterval : ℚ) (per_request : Option Int)
       (clock : Nat → ℚ) (responses : List ClientResp) (t : RunTrace),
       streamentries max_events timeout pollInterval per_request clock responses
         = some t →
       ∀ s ∈ t.sleeps, 0 ≤ s.2)
  ∧ (∀ (max_events p : Int), p < 0 → resolvedPageSize max_events (some p) = p)
  ∧ (∀ (max_events : Int) (timeout pollInterval : ℚ) (per_request : Option Int)
       (clock : Nat → ℚ) (responses : List ClientResp) (t : RunTrace),
       AllOk responses →
       streamentries max_events timeout pollInterval per_request clock responses
         = some t →
       ∃ evs, t.result = RunResult.success evs) := by
  refine ⟨?_, ?_, ?_, ?_⟩
  · intro m timeout p pr c r
    simp only [streamentries]
    rw [max_eq_left (le_max_right timeout 0)]
  · intro m timeout p pr c r t hrun s hs
    have hshape := pollLoop_sleeps _ _ _ _ _ _ _ _ _ _ _ _
      (fun s' hs' => absurd hs' (List.not_mem_nil s')) hrun s hs
    rw [hshape]
    split <;> exact le_max_right _ _
  · intro m p hp
    by_cases hm : m > 0 <;> simp [resolvedPageSize, pyOr, hm, hp.ne]
  · intro m timeout p pr c r t hok hrun
    exact pollLoop_allOk _ _ _ _ _ _ _ _ _ _ _ _ hok hrun

/-- C9 witness: the four amended parts at concrete inputs: a run with a
negative timeout, a concrete clamped sleep, the unclamped negative
override, and an error-free run ending in success. -/
theorem C9_amended_witness :
    streamentries 5 (-3) 5 none (fun _ => (0 : ℚ)) []
        = streamentries 5 (max (-3) 0) 5 none (fun _ => (0 : ℚ)) []
  ∧ (0 : ℚ) ≤ 5
  ∧ resolvedPageSize 5 (some (-7)) = -7
  ∧ ∃ evs, RunTrace.result ⟨RunResult.success [], 25, 0, []⟩
      = RunResult.success evs := by
  refine ⟨?_, ?_, ?_, ?_⟩
  · exact C9_amended_clamping.1 5 (-3) 5 none (fun _ => (0 : ℚ)) []
  · have hrun : streamentries 5 10 5 none (fun n => (6 : ℚ) * n) [ClientResp.ok []]
        = some ⟨RunResult.success [], 10, 1, [(false, 5)]⟩ := by
      norm_num +decide [streamentries, pollLoop, scanBatch, resolvedPageSize, pyOr,
        underLimit, limitReached]
    exact C9_amended_clamping.2.1 5 10 5 none _ _ _ hrun (false, 5) (by simp)
  · exact C9_amended_clamping.2.2.1 5 (-7) (by norm_num)
  · have hrun : streamentries (-1) 0 5 none (fun _ => (0 : ℚ)) []
        = some ⟨RunResult.success [], 25, 0, []⟩ := by
      norm_num +decide [streamentries, pollLoop, resolvedPageSize, pyOr, underLimit]
    exact C9_amended_clamping.2.2.2 (-1) 0 5 none _ _ _
      (by intro r hr; exact absurd hr (List.not_mem_nil r)) hrun

/-- C10: a caller-supplied page-size override of 0 is treated exactly as
no override (Python `or` treats 0 as falsy): the whole run is identical to
the no-override run, the derived page size is never 0, and no run with a
zero override ever records a page size of 0. -/
theorem C10_zero_override_defaulted :
    (∀ (max_events : Int) (timeout pollInterval : ℚ) (clock : Nat → ℚ)
       (responses : List ClientResp),
       streamentries max_events timeout pollInterval (some 0) clock responses
         = streamentries max_events timeout pollInterval none clock responses)
  ∧ (∀ max_events : Int, resolvedPageSize max_events (some 0) ≠ 0)
  ∧ (∀ (max_events : Int) (timeout pollInterval : ℚ) (clock : Nat → ℚ)
       (responses : List ClientResp) (t : RunTrace),
       streamentries max_events timeout pollInterval (some 0) clock responses
         = some t →
       t.pageSize ≠ 0) := by
  have hne : ∀ max_events : Int, resolvedPageSize max_events (some 0) ≠ 0 := by
    intro m
    by_cases hm : m > 0
    · have h1 : (0 : Int) < max (m * 2) 1 :=
        lt_of_lt_of_le Int.one_pos (le_max_right _ _)
      simp only [resolvedPageSize, pyOr, if_pos hm, if_pos rfl]
      exact ne_of_gt h1
    · simp [resolvedPageSize, pyOr, hm]
  refine ⟨?_, hne, ?_⟩
  · intro m timeout p c r
    simp [streamentries, resolvedPageSize, pyOr]
  · intro m timeout p c r t hrun
    have hp := pollLoop_pageSize _ _ _ _ _ _ _ _ _ _ _ _ hrun
    rw [hp]
    exact hne m

/-- C10 witness: the third part applied to a concrete zero-override run:
its recorded page size is 10, not 0. -/
theorem C10_witness :
    RunTrace.pageSize ⟨RunResult.success [], 10, 0, []⟩ ≠ 0 := by
  have hrun : streamentries 5 0 5 (some 0) (fun _ => (0 : ℚ)) []
      = some ⟨RunResult.success [], 10, 0, []⟩ := by
    norm_num +decide [streamentries, pollLoop, resolvedPageSize, pyOr, underLimit]
  exact C10_zero_override_defaulted.2.2 5 0 5 _ _ _ hrun

end DiaMcp
